import Mathlib

/-!
Shallow embedding of the ARP wire codec (src/wire/arp.rs).

A buffer is a list of natural numbers, each entry standing for one byte
(byte values are below 256 where the Rust type u8 enforces it).  Rust
operations that can panic (out-of-bounds slicing, copy_from_slice with a
length mismatch) or return Err(()) are modelled as Option-valued
functions returning none in those cases.
-/

namespace Arp

/-- A byte buffer: one natural number per byte. -/
abbrev Buffer := List Nat

/-- A half-open byte range start..stop, mirroring the Rust Range used by
the field module (Rust names the bounds start and end). -/
structure Field where
  lo : Nat
  hi : Nat
deriving DecidableEq

/-- ARP hardware type: named variant Ethernet = 1 plus a catch-all
carrying the raw unrecognized 16-bit code (enum_with_unknown idiom). -/
inductive HardwareType
  | Ethernet
  | Unknown (raw : Nat)
deriving DecidableEq

/-- Conversion from a raw 16-bit code, as generated by enum_with_unknown. -/
def HardwareType.fromNat (raw : Nat) : HardwareType :=
  if raw = 1 then HardwareType.Ethernet else HardwareType.Unknown raw

/-- Conversion back to the raw 16-bit code. -/
def HardwareType.toNat : HardwareType → Nat
  | HardwareType.Ethernet => 1
  | HardwareType.Unknown raw => raw

/-- ARP operation type: Request = 1, Reply = 2, plus the catch-all. -/
inductive Operation
  | Request
  | Reply
  | Unknown (raw : Nat)
deriving DecidableEq

/-- Conversion from a raw 16-bit code. -/
def Operation.fromNat (raw : Nat) : Operation :=
  if raw = 1 then Operation.Request
  else if raw = 2 then Operation.Reply
  else Operation.Unknown raw

/-- Conversion back to the raw 16-bit code. -/
def Operation.toNat : Operation → Nat
  | Operation.Request => 1
  | Operation.Reply => 2
  | Operation.Unknown raw => raw

/-- Modelled from the spec: the protocol-type enumeration shared with the
Ethernet layer (EthernetProtocolType, not under src/), with IPv4 = 0x0800
and the same closed-with-escape-hatch shape. -/
inductive ProtocolType
  | Ipv4
  | Unknown (raw : Nat)
deriving DecidableEq

/-- Modelled from the spec: construct a ProtocolType from a raw 16-bit code. -/
def ProtocolType.fromNat (raw : Nat) : ProtocolType :=
  if raw = 0x0800 then ProtocolType.Ipv4 else ProtocolType.Unknown raw

/-- Modelled from the spec: convert a ProtocolType to its raw 16-bit code. -/
def ProtocolType.toNat : ProtocolType → Nat
  | ProtocolType.Ipv4 => 0x0800
  | ProtocolType.Unknown raw => raw

/-- Modelled from the spec: the fixed-size 6-byte hardware address type
(EthernetAddress, not under src/), exposing construct-from-byte-slice and
view-as-byte-slice. -/
structure EthernetAddress where
  b0 : Nat
  b1 : Nat
  b2 : Nat
  b3 : Nat
  b4 : Nat
  b5 : Nat
deriving DecidableEq

/-- Modelled from the spec: construct an EthernetAddress from a 6-byte slice. -/
def EthernetAddress.from_bytes (xs : List Nat) : EthernetAddress :=
  ⟨xs.getD 0 0, xs.getD 1 0, xs.getD 2 0, xs.getD 3 0, xs.getD 4 0, xs.getD 5 0⟩

/-- Modelled from the spec: view an EthernetAddress as a 6-byte slice. -/
def EthernetAddress.as_bytes (a : EthernetAddress) : List Nat :=
  [a.b0, a.b1, a.b2, a.b3, a.b4, a.b5]

/-- Modelled from the spec: the fixed-size 4-byte protocol address type
(Ipv4Address, not under src/). -/
structure Ipv4Address where
  b0 : Nat
  b1 : Nat
  b2 : Nat
  b3 : Nat
deriving DecidableEq

/-- Modelled from the spec: construct an Ipv4Address from a 4-byte slice. -/
def Ipv4Address.from_bytes (xs : List Nat) : Ipv4Address :=
  ⟨xs.getD 0 0, xs.getD 1 0, xs.getD 2 0, xs.getD 3 0⟩

/-- Modelled from the spec: view an Ipv4Address as a 4-byte slice. -/
def Ipv4Address.as_bytes (a : Ipv4Address) : List Nat :=
  [a.b0, a.b1, a.b2, a.b3]

/-- field::HTYPE = 0..2 -/
def field.HTYPE : Field := ⟨0, 2⟩

/-- field::PTYPE = 2..4 -/
def field.PTYPE : Field := ⟨2, 4⟩

/-- field::HLEN = 4 -/
def field.HLEN : Nat := 4

/-- field::PLEN = 5 -/
def field.PLEN : Nat := 5

/-- field::OPER = 6..8 -/
def field.OPER : Field := ⟨6, 8⟩

/-- field::SHA: starts at OPER.end, extends for hardware_length bytes. -/
def field.SHA (hardware_length _protocol_length : Nat) : Field :=
  ⟨field.OPER.hi, field.OPER.hi + hardware_length⟩

/-- field::SPA: starts at SHA.end, extends for protocol_length bytes. -/
def field.SPA (hardware_length protocol_length : Nat) : Field :=
  ⟨(field.SHA hardware_length protocol_length).hi,
   (field.SHA hardware_length protocol_length).hi + protocol_length⟩

/-- field::THA: starts at SPA.end, extends for hardware_length bytes. -/
def field.THA (hardware_length protocol_length : Nat) : Field :=
  ⟨(field.SPA hardware_length protocol_length).hi,
   (field.SPA hardware_length protocol_length).hi + hardware_length⟩

/-- field::TPA: starts at THA.end, extends for protocol_length bytes. -/
def field.TPA (hardware_length protocol_length : Nat) : Field :=
  ⟨(field.THA hardware_length protocol_length).hi,
   (field.THA hardware_length protocol_length).hi + protocol_length⟩

/-- Membership of a byte index in a field range. -/
def Field.mem (f : Field) (i : Nat) : Prop := f.lo ≤ i ∧ i < f.hi

instance (f : Field) (i : Nat) : Decidable (f.mem i) := by
  unfold Field.mem; infer_instance

/-- Rust slicing bytes[lo..hi]: panics (none) unless lo ≤ hi ≤ len. -/
def sliceF (b : Buffer) (f : Field) : Option (List Nat) :=
  if f.lo ≤ f.hi ∧ f.hi ≤ b.length then
    some ((b.drop f.lo).take (f.hi - f.lo))
  else none

/-- NetworkEndian::read_u16 on a (2-byte) slice: big-endian. -/
def readU16BE (xs : List Nat) : Nat := xs.getD 0 0 * 256 + xs.getD 1 0

/-- The big-endian byte pair of a 16-bit value. -/
def u16Bytes (v : Nat) : List Nat := [v / 256 % 256, v % 256]

/-- Write a list of bytes into the buffer starting at index i
(positions past the end of the buffer are dropped by List.set). -/
def writeBytes : Buffer → Nat → List Nat → Buffer
  | b, _, [] => b
  | b, i, x :: xs => writeBytes (b.set i x) (i + 1) xs

/-- NetworkEndian::write_u16 into bytes[f]: panics (none) unless the
range is in bounds; writes big-endian. -/
def writeU16 (b : Buffer) (f : Field) (v : Nat) : Option Buffer :=
  if f.lo ≤ f.hi ∧ f.hi ≤ b.length then
    some (writeBytes b f.lo (u16Bytes v))
  else none

/-- bytes[f].copy_from_slice(v): panics (none) unless the range is in
bounds and v has exactly the range width; otherwise writes v verbatim. -/
def copyFromSlice (b : Buffer) (f : Field) (v : List Nat) : Option Buffer :=
  if f.lo ≤ f.hi ∧ f.hi ≤ b.length then
    if v.length = f.hi - f.lo then some (writeBytes b f.lo v) else none
  else none

/-- Packet::hardware_type: big-endian u16 at field::HTYPE. -/
def Packet.hardware_type (b : Buffer) : Option HardwareType :=
  (sliceF b field.HTYPE).map fun s => HardwareType.fromNat (readU16BE s)

/-- Packet::protocol_type: big-endian u16 at field::PTYPE. -/
def Packet.protocol_type (b : Buffer) : Option ProtocolType :=
  (sliceF b field.PTYPE).map fun s => ProtocolType.fromNat (readU16BE s)

/-- Packet::hardware_length: the byte at field::HLEN. -/
def Packet.hardware_length (b : Buffer) : Option Nat := b[field.HLEN]?

/-- Packet::protocol_length: the byte at field::PLEN. -/
def Packet.protocol_length (b : Buffer) : Option Nat := b[field.PLEN]?

/-- Packet::operation: big-endian u16 at field::OPER. -/
def Packet.operation (b : Buffer) : Option Operation :=
  (sliceF b field.OPER).map fun s => Operation.fromNat (readU16BE s)

/-- Packet::source_hardware_addr: slice at SHA, bounds re-derived from the
current header length bytes. -/
def Packet.source_hardware_addr (b : Buffer) : Option (List Nat) := do
  let hl ← Packet.hardware_length b
  let pl ← Packet.protocol_length b
  sliceF b (field.SHA hl pl)

/-- Packet::source_protocol_addr: slice at SPA. -/
def Packet.source_protocol_addr (b : Buffer) : Option (List Nat) := do
  let hl ← Packet.hardware_length b
  let pl ← Packet.protocol_length b
  sliceF b (field.SPA hl pl)

/-- Packet::target_hardware_addr: slice at THA. -/
def Packet.target_hardware_addr (b : Buffer) : Option (List Nat) := do
  let hl ← Packet.hardware_length b
  let pl ← Packet.protocol_length b
  sliceF b (field.THA hl pl)

/-- Packet::target_protocol_addr: slice at TPA. -/
def Packet.target_protocol_addr (b : Buffer) : Option (List Nat) := do
  let hl ← Packet.hardware_length b
  let pl ← Packet.protocol_length b
  sliceF b (field.TPA hl pl)

/-- Packet::new: two-phase validation.  Err(()) is modelled as none; on
success the packet view is the buffer itself. -/
def Packet.new (b : Buffer) : Option Buffer :=
  if b.length < field.OPER.hi then none
  else do
    let hl ← Packet.hardware_length b
    let pl ← Packet.protocol_length b
    if b.length < (field.TPA hl pl).hi then none else some b

/-- Packet::set_hardware_type. -/
def Packet.set_hardware_type (b : Buffer) (v : HardwareType) : Option Buffer :=
  writeU16 b field.HTYPE v.toNat

/-- Packet::set_protocol_type. -/
def Packet.set_protocol_type (b : Buffer) (v : ProtocolType) : Option Buffer :=
  writeU16 b field.PTYPE v.toNat

/-- Packet::set_hardware_length: single-byte write at field::HLEN. -/
def Packet.set_hardware_length (b : Buffer) (v : Nat) : Option Buffer :=
  if field.HLEN < b.length then some (b.set field.HLEN v) else none

/-- Packet::set_protocol_length: single-byte write at field::PLEN. -/
def Packet.set_protocol_length (b : Buffer) (v : Nat) : Option Buffer :=
  if field.PLEN < b.length then some (b.set field.PLEN v) else none

/-- Packet::set_operation. -/
def Packet.set_operation (b : Buffer) (v : Operation) : Option Buffer :=
  writeU16 b field.OPER v.toNat

/-- Packet::set_source_hardware_addr: reads the current length bytes, then
copies v into the SHA range; panics (none) on a length mismatch. -/
def Packet.set_source_hardware_addr (b : Buffer) (v : List Nat) : Option Buffer := do
  let hl ← Packet.hardware_length b
  let pl ← Packet.protocol_length b
  copyFromSlice b (field.SHA hl pl) v

/-- Packet::set_source_protocol_addr. -/
def Packet.set_source_protocol_addr (b : Buffer) (v : List Nat) : Option Buffer := do
  let hl ← Packet.hardware_length b
  let pl ← Packet.protocol_length b
  copyFromSlice b (field.SPA hl pl) v

/-- Packet::set_target_hardware_addr. -/
def Packet.set_target_hardware_addr (b : Buffer) (v : List Nat) : Option Buffer := do
  let hl ← Packet.hardware_length b
  let pl ← Packet.protocol_length b
  copyFromSlice b (field.THA hl pl) v

/-- Packet::set_target_protocol_addr. -/
def Packet.set_target_protocol_addr (b : Buffer) (v : List Nat) : Option Buffer := do
  let hl ← Packet.hardware_length b
  let pl ← Packet.protocol_length b
  copyFromSlice b (field.TPA hl pl) v

/-- The high-level representation (Repr), with the hidden non-exhaustive
placeholder variant. -/
inductive Repr
  | EthernetIpv4
      (operation : Operation)
      (source_hardware_addr : EthernetAddress)
      (source_protocol_addr : Ipv4Address)
      (target_hardware_addr : EthernetAddress)
      (target_protocol_addr : Ipv4Address)
  | Nonexhaustive
deriving DecidableEq

/-- Repr::parse: recognizes only (Ethernet, IPv4, 6, 4); Err(()) is none. -/
def Repr.parse (b : Buffer) : Option Repr := do
  let ht ← Packet.hardware_type b
  let pt ← Packet.protocol_type b
  let hl ← Packet.hardware_length b
  let pl ← Packet.protocol_length b
  match ht, pt, hl, pl with
  | HardwareType.Ethernet, ProtocolType.Ipv4, 6, 4 => do
      let op ← Packet.operation b
      let sha ← Packet.source_hardware_addr b
      let spa ← Packet.source_protocol_addr b
      let tha ← Packet.target_hardware_addr b
      let tpa ← Packet.target_protocol_addr b
      pure (Repr.EthernetIpv4 op
        (EthernetAddress.from_bytes sha) (Ipv4Address.from_bytes spa)
        (EthernetAddress.from_bytes tha) (Ipv4Address.from_bytes tpa))
  | _, _, _, _ => none

/-- Repr::emit: writes the fixed header and the four addresses, in field
order; the unreachable placeholder arm is modelled as none. -/
def Repr.emit (r : Repr) (b : Buffer) : Option Buffer :=
  match r with
  | Repr.EthernetIpv4 op sha spa tha tpa => do
      let b1 ← Packet.set_hardware_type b HardwareType.Ethernet
      let b2 ← Packet.set_protocol_type b1 ProtocolType.Ipv4
      let b3 ← Packet.set_hardware_length b2 6
      let b4 ← Packet.set_protocol_length b3 4
      let b5 ← Packet.set_operation b4 op
      let b6 ← Packet.set_source_hardware_addr b5 (EthernetAddress.as_bytes sha)
      let b7 ← Packet.set_source_protocol_addr b6 (Ipv4Address.as_bytes spa)
      let b8 ← Packet.set_target_hardware_addr b7 (EthernetAddress.as_bytes tha)
      let b9 ← Packet.set_target_protocol_addr b8 (Ipv4Address.as_bytes tpa)
      pure b9
  | Repr.Nonexhaustive => none

/-- The structural length invariant established by Packet::new: the buffer
holds the fixed header and the four declared variable-length fields. -/
def lenInv (b : Buffer) : Prop :=
  field.OPER.hi ≤ b.length ∧
  (field.TPA (b.getD field.HLEN 0) (b.getD field.PLEN 0)).hi ≤ b.length

instance (b : Buffer) : Decidable (lenInv b) := by
  unfold lenInv; infer_instance

/-- The 28-byte test vector from the source tests. -/
def PACKET_BYTES : Buffer :=
  [0x00, 0x01, 0x08, 0x00, 0x06, 0x04, 0x00, 0x01,
   0x11, 0x12, 0x13, 0x14, 0x15, 0x16,
   0x21, 0x22, 0x23, 0x24,
   0x31, 0x32, 0x33, 0x34, 0x35, 0x36,
   0x41, 0x42, 0x43, 0x44]

/-- The Repr value of the test vector. -/
def packet_repr : Repr :=
  Repr.EthernetIpv4 Operation.Request
    ⟨0x11, 0x12, 0x13, 0x14, 0x15, 0x16⟩
    ⟨0x21, 0x22, 0x23, 0x24⟩
    ⟨0x31, 0x32, 0x33, 0x34, 0x35, 0x36⟩
    ⟨0x41, 0x42, 0x43, 0x44⟩

/-! Helper lemmas about the byte-level primitives. -/

theorem writeBytes_length (v : List Nat) (b : Buffer) (i : Nat) :
    (writeBytes b i v).length = b.length := by
  induction v generalizing b i with
  | nil => rfl
  | cons x xs ih => rw [writeBytes, ih, List.length_set]

theorem writeBytes_getElem?_frame (v : List Nat) (b : Buffer) (s i : Nat)
    (h : i < s ∨ s + v.length ≤ i) : (writeBytes b s v)[i]? = b[i]? := by
  induction v generalizing b s with
  | nil => rfl
  | cons x xs ih =>
      rw [writeBytes, ih (b.set s x) (s + 1) (by simp at h; omega),
        List.getElem?_set_ne (by simp at h; omega)]

theorem writeBytes_getElem?_read (v : List Nat) (b : Buffer) (s k : Nat)
    (hk : k < v.length) (hb : s + v.length ≤ b.length) :
    (writeBytes b s v)[s + k]? = v[k]? := by
  induction v generalizing b s k with
  | nil => simp at hk
  | cons x xs ih =>
      cases k with
      | zero =>
          rw [writeBytes]
          rw [show s + 0 = s from rfl]
          rw [writeBytes_getElem?_frame xs (b.set s x) (s + 1) s (Or.inl (by omega))]
          simp at hb
          simp [List.getElem?_set_self (show s < b.length by omega)]
      | succ k =>
          rw [writeBytes, show s + (k + 1) = (s + 1) + k by omega,
            ih (b.set s x) (s + 1) k (by simpa using hk) (by simp at hb ⊢; omega)]
          simp

theorem writeBytes_getD_frame (v : List Nat) (b : Buffer) (s i : Nat)
    (h : i < s ∨ s + v.length ≤ i) :
    (writeBytes b s v).getD i 0 = b.getD i 0 := by
  simp [List.getD_eq_getElem?_getD, writeBytes_getElem?_frame v b s i h]

theorem writeBytes_getD_read (v : List Nat) (b : Buffer) (s k : Nat)
    (hk : k < v.length) (hb : s + v.length ≤ b.length) :
    (writeBytes b s v).getD (s + k) 0 = v.getD k 0 := by
  simp [List.getD_eq_getElem?_getD, writeBytes_getElem?_read v b s k hk hb]

theorem sliceF_eq_some (b : Buffer) (f : Field) (h1 : f.lo ≤ f.hi)
    (h2 : f.hi ≤ b.length) :
    sliceF b f = some ((b.drop f.lo).take (f.hi - f.lo)) := by
  simp [sliceF, h1, h2]

theorem slice_getD (b : Buffer) (s n k : Nat) (hk : k < n) :
    ((b.drop s).take n).getD k 0 = b.getD (s + k) 0 := by
  simp [List.getD_eq_getElem?_getD, List.getElem?_take_of_lt hk, List.getElem?_drop]

theorem getElem?_eq_some_getD (b : Buffer) (i : Nat) (h : i < b.length) :
    b[i]? = some (b.getD i 0) := by
  simp [List.getD_eq_getElem?_getD, List.getElem?_eq_getElem h]

/-! Helper lemmas about the enumerations. -/

theorem hwType_code_roundtrip (v : Nat) :
    (HardwareType.fromNat v).toNat = v := by
  unfold HardwareType.fromNat
  split_ifs with h1 <;> simp [HardwareType.toNat, h1]

theorem operation_code_roundtrip (v : Nat) :
    (Operation.fromNat v).toNat = v := by
  unfold Operation.fromNat
  split_ifs with h1 h2 <;> simp_all [Operation.toNat]

theorem protocolType_code_roundtrip (v : Nat) :
    (ProtocolType.fromNat v).toNat = v := by
  unfold ProtocolType.fromNat
  split_ifs with h1 <;> simp [ProtocolType.toNat, h1]

/-- A convenient restatement of the length invariant as plain arithmetic. -/
theorem lenInv_iff (b : Buffer) :
    lenInv b ↔ 8 ≤ b.length ∧
      8 + 2 * b.getD 4 0 + 2 * b.getD 5 0 ≤ b.length := by
  unfold lenInv
  simp only [field.TPA, field.THA, field.SPA, field.SHA, field.OPER,
    field.HLEN, field.PLEN]
  omega

theorem readU16BE_slice (b : Buffer) (s : Nat) :
    readU16BE ((b.drop s).take 2) = b.getD s 0 * 256 + b.getD (s + 1) 0 := by
  rw [readU16BE, slice_getD b s 2 0 (by omega), slice_getD b s 2 1 (by omega),
    Nat.add_zero]

theorem readU16BE_take (b : Buffer) :
    readU16BE (b.take 2) = b.getD 0 0 * 256 + b.getD 1 0 := by
  have := readU16BE_slice b 0
  simpa using this

theorem hardware_type_eq (b : Buffer) (h : 2 ≤ b.length) :
    Packet.hardware_type b =
      some (HardwareType.fromNat (b.getD 0 0 * 256 + b.getD 1 0)) := by
  rw [Packet.hardware_type,
    sliceF_eq_some b field.HTYPE (by decide) (by simpa [field.HTYPE] using h),
    Option.map_some']
  norm_num [field.HTYPE, readU16BE_slice, readU16BE_take]

theorem protocol_type_eq (b : Buffer) (h : 4 ≤ b.length) :
    Packet.protocol_type b =
      some (ProtocolType.fromNat (b.getD 2 0 * 256 + b.getD 3 0)) := by
  rw [Packet.protocol_type,
    sliceF_eq_some b field.PTYPE (by decide) (by simpa [field.PTYPE] using h),
    Option.map_some']
  norm_num [field.PTYPE, readU16BE_slice, readU16BE_take]

theorem operation_eq (b : Buffer) (h : 8 ≤ b.length) :
    Packet.operation b =
      some (Operation.fromNat (b.getD 6 0 * 256 + b.getD 7 0)) := by
  rw [Packet.operation,
    sliceF_eq_some b field.OPER (by decide) (by simpa [field.OPER] using h),
    Option.map_some']
  norm_num [field.OPER, readU16BE_slice, readU16BE_take]

theorem hardware_length_eq (b : Buffer) (h : 8 ≤ b.length) :
    Packet.hardware_length b = some (b.getD 4 0) := by
  rw [Packet.hardware_length, getElem?_eq_some_getD b field.HLEN (by simp [field.HLEN]; omega)]
  rfl

theorem protocol_length_eq (b : Buffer) (h : 8 ≤ b.length) :
    Packet.protocol_length b = some (b.getD 5 0) := by
  rw [Packet.protocol_length, getElem?_eq_some_getD b field.PLEN (by simp [field.PLEN]; omega)]
  rfl



theorem SHA_eq (hl pl : Nat) : field.SHA hl pl = ⟨8, 8 + hl⟩ := rfl

theorem SPA_eq (hl pl : Nat) : field.SPA hl pl = ⟨8 + hl, 8 + hl + pl⟩ := rfl

theorem THA_eq (hl pl : Nat) : field.THA hl pl = ⟨8 + hl + pl, 8 + hl + pl + hl⟩ := rfl

theorem TPA_eq (hl pl : Nat) :
    field.TPA hl pl = ⟨8 + hl + pl + hl, 8 + hl + pl + hl + pl⟩ := rfl

theorem sliceF_take_drop (b : Buffer) (lo w : Nat) (h : lo + w ≤ b.length) :
    sliceF b ⟨lo, lo + w⟩ = some ((b.drop lo).take w) := by
  rw [sliceF_eq_some b ⟨lo, lo + w⟩ (Nat.le_add_right lo w) h]
  show some ((b.drop lo).take (lo + w - lo)) = some ((b.drop lo).take w)
  rw [Nat.add_sub_cancel_left]

theorem source_hardware_addr_eq (b : Buffer) (h : lenInv b) :
    Packet.source_hardware_addr b = some ((b.drop 8).take (b.getD 4 0)) := by
  obtain ⟨h8, hfull⟩ := (lenInv_iff b).1 h
  rw [Packet.source_hardware_addr, hardware_length_eq b h8, protocol_length_eq b h8]
  simp only [Option.bind_eq_bind, Option.some_bind]
  rw [SHA_eq, sliceF_take_drop b 8 (b.getD 4 0) (by omega)]

theorem source_protocol_addr_eq (b : Buffer) (h : lenInv b) :
    Packet.source_protocol_addr b =
      some ((b.drop (8 + b.getD 4 0)).take (b.getD 5 0)) := by
  obtain ⟨h8, hfull⟩ := (lenInv_iff b).1 h
  rw [Packet.source_protocol_addr, hardware_length_eq b h8, protocol_length_eq b h8]
  simp only [Option.bind_eq_bind, Option.some_bind]
  rw [SPA_eq, sliceF_take_drop b (8 + b.getD 4 0) (b.getD 5 0) (by omega)]

theorem target_hardware_addr_eq (b : Buffer) (h : lenInv b) :
    Packet.target_hardware_addr b =
      some ((b.drop (8 + b.getD 4 0 + b.getD 5 0)).take (b.getD 4 0)) := by
  obtain ⟨h8, hfull⟩ := (lenInv_iff b).1 h
  rw [Packet.target_hardware_addr, hardware_length_eq b h8, protocol_length_eq b h8]
  simp only [Option.bind_eq_bind, Option.some_bind]
  rw [THA_eq, sliceF_take_drop b (8 + b.getD 4 0 + b.getD 5 0) (b.getD 4 0) (by omega)]

theorem target_protocol_addr_eq (b : Buffer) (h : lenInv b) :
    Packet.target_protocol_addr b =
      some ((b.drop (8 + b.getD 4 0 + b.getD 5 0 + b.getD 4 0)).take (b.getD 5 0)) := by
  obtain ⟨h8, hfull⟩ := (lenInv_iff b).1 h
  rw [Packet.target_protocol_addr, hardware_length_eq b h8, protocol_length_eq b h8]
  simp only [Option.bind_eq_bind, Option.some_bind]
  rw [TPA_eq,
    sliceF_take_drop b (8 + b.getD 4 0 + b.getD 5 0 + b.getD 4 0) (b.getD 5 0) (by omega)]

theorem Packet.new_none_short (b : Buffer) (h : b.length < 8) :
    Packet.new b = none := by
  rw [Packet.new, if_pos (by simpa [field.OPER] using h)]

theorem Packet.new_none_declared (b : Buffer) (h8 : 8 ≤ b.length)
    (h : b.length < 8 + 2 * b.getD 4 0 + 2 * b.getD 5 0) :
    Packet.new b = none := by
  rw [Packet.new, if_neg (by simp [field.OPER]; omega),
    hardware_length_eq b h8, protocol_length_eq b h8]
  simp only [Option.bind_eq_bind, Option.some_bind]
  rw [TPA_eq, if_pos (by simp at h ⊢; omega)]

theorem Packet.new_some (b : Buffer) (h8 : 8 ≤ b.length)
    (h : 8 + 2 * b.getD 4 0 + 2 * b.getD 5 0 ≤ b.length) :
    Packet.new b = some b := by
  rw [Packet.new, if_neg (by simp [field.OPER]; omega),
    hardware_length_eq b h8, protocol_length_eq b h8]
  simp only [Option.bind_eq_bind, Option.some_bind]
  rw [TPA_eq, if_neg (by simp at h ⊢; omega)]


/-- C3: for every structurally valid packet view, Repr::parse succeeds
exactly when the header tuple is (Ethernet, IPv4, 6, 4); the result copies
the four address fields out of the buffer and the operation field verbatim
(unrecognized operation codes are preserved by Operation.fromNat, not
rejected); any other tuple yields the unsupported-combination error. -/
theorem C3_parse_recognition (b : Buffer) (h : lenInv b) :
    (Packet.hardware_type b = some HardwareType.Ethernet ∧
     Packet.protocol_type b = some ProtocolType.Ipv4 ∧
     Packet.hardware_length b = some 6 ∧
     Packet.protocol_length b = some 4 →
      Repr.parse b = some (Repr.EthernetIpv4
        (Operation.fromNat (b.getD 6 0 * 256 + b.getD 7 0))
        (EthernetAddress.from_bytes ((b.drop 8).take 6))
        (Ipv4Address.from_bytes ((b.drop 14).take 4))
        (EthernetAddress.from_bytes ((b.drop 18).take 6))
        (Ipv4Address.from_bytes ((b.drop 24).take 4)))) ∧
    (¬ (Packet.hardware_type b = some HardwareType.Ethernet ∧
        Packet.protocol_type b = some ProtocolType.Ipv4 ∧
        Packet.hardware_length b = some 6 ∧
        Packet.protocol_length b = some 4) →
      Repr.parse b = none) := by
  have h8 : 8 ≤ b.length := by
    have := (lenInv_iff b).1 h
    omega
  constructor
  · rintro ⟨hht, hpt, hhl, hpl⟩
    have e4 : b.getD 4 0 = 6 :=
      Option.some.inj ((hardware_length_eq b h8).symm.trans hhl)
    have e5 : b.getD 5 0 = 4 :=
      Option.some.inj ((protocol_length_eq b h8).symm.trans hpl)
    rw [Repr.parse, hht, hpt, hhl, hpl]
    simp only [Option.bind_eq_bind, Option.some_bind]
    rw [operation_eq b h8, source_hardware_addr_eq b h, source_protocol_addr_eq b h,
      target_hardware_addr_eq b h, target_protocol_addr_eq b h, e4, e5]
    simp only [Option.bind_eq_bind, Option.some_bind]
    norm_num
  · intro hn
    rw [Repr.parse, hardware_type_eq b (by omega), protocol_type_eq b (by omega),
      hardware_length_eq b h8, protocol_length_eq b h8]
    simp only [Option.bind_eq_bind, Option.some_bind]
    split
    · rename_i heq1 heq2 heq3 heq4
      exact absurd
        ⟨by rw [hardware_type_eq b (by omega), heq1],
         by rw [protocol_type_eq b (by omega), heq2],
         by rw [hardware_length_eq b h8, heq3],
         by rw [protocol_length_eq b h8, heq4]⟩ hn
    · rfl


theorem writeU16_spec (b : Buffer) (lo v : Nat) (h : lo + 2 ≤ b.length) :
    writeU16 b ⟨lo, lo + 2⟩ v = some (writeBytes b lo (u16Bytes v)) ∧
    (writeBytes b lo (u16Bytes v)).length = b.length ∧
    (writeBytes b lo (u16Bytes v)).getD lo 0 = v / 256 % 256 ∧
    (writeBytes b lo (u16Bytes v)).getD (lo + 1) 0 = v % 256 := by
  refine ⟨by rw [writeU16, if_pos ⟨Nat.le_add_right lo 2, h⟩], writeBytes_length _ b lo, ?_, ?_⟩
  · have := writeBytes_getD_read (u16Bytes v) b lo 0 (by simp [u16Bytes]) (by simp [u16Bytes]; omega)
    simpa using this
  · have := writeBytes_getD_read (u16Bytes v) b lo 1 (by simp [u16Bytes]) (by simp [u16Bytes]; omega)
    simpa [u16Bytes] using this

theorem writeU16_some_inv (b : Buffer) (f : Field) (x : Nat) (b2 : Buffer)
    (h : writeU16 b f x = some b2) :
    b2 = writeBytes b f.lo (u16Bytes x) ∧ f.hi ≤ b.length := by
  rw [writeU16] at h
  split_ifs at h with hc
  exact ⟨(Option.some.inj h).symm, hc.2⟩

theorem copyFromSlice_none (b : Buffer) (f : Field) (v : List Nat)
    (h : v.length ≠ f.hi - f.lo) : copyFromSlice b f v = none := by
  rw [copyFromSlice]
  split_ifs <;> simp_all

theorem copyFromSlice_some_inv (b : Buffer) (f : Field) (v : List Nat) (b2 : Buffer)
    (h : copyFromSlice b f v = some b2) :
    b2 = writeBytes b f.lo v ∧ v.length = f.hi - f.lo ∧ f.hi ≤ b.length := by
  rw [copyFromSlice] at h
  split_ifs at h with h1 h2
  exact ⟨(Option.some.inj h).symm, h2, h1.2⟩

/-- C7: on a valid packet view the fixed-header accessors read exactly the
documented offsets (hardware type 0..2, protocol type 2..4, hardware length
4, protocol length 5, operation 6..8) with big-endian decoding of the
16-bit fields; the 16-bit mutators write the same offsets big-endian; and
the address readers re-derive their bounds from the current header length
bytes on every call. -/
theorem C7_field_offsets (b : Buffer) (h : lenInv b) :
    Packet.hardware_type b =
      some (HardwareType.fromNat (b.getD 0 0 * 256 + b.getD 1 0)) ∧
    Packet.protocol_type b =
      some (ProtocolType.fromNat (b.getD 2 0 * 256 + b.getD 3 0)) ∧
    Packet.hardware_length b = some (b.getD 4 0) ∧
    Packet.protocol_length b = some (b.getD 5 0) ∧
    Packet.operation b =
      some (Operation.fromNat (b.getD 6 0 * 256 + b.getD 7 0)) ∧
    (∀ v : HardwareType, ∃ b2 : Buffer,
      Packet.set_hardware_type b v = some b2 ∧ b2.length = b.length ∧
      b2.getD 0 0 = v.toNat / 256 % 256 ∧ b2.getD 1 0 = v.toNat % 256) ∧
    (∀ v : ProtocolType, ∃ b2 : Buffer,
      Packet.set_protocol_type b v = some b2 ∧ b2.length = b.length ∧
      b2.getD 2 0 = v.toNat / 256 % 256 ∧ b2.getD 3 0 = v.toNat % 256) ∧
    (∀ v : Operation, ∃ b2 : Buffer,
      Packet.set_operation b v = some b2 ∧ b2.length = b.length ∧
      b2.getD 6 0 = v.toNat / 256 % 256 ∧ b2.getD 7 0 = v.toNat % 256) ∧
    Packet.source_hardware_addr b = some ((b.drop 8).take (b.getD 4 0)) ∧
    Packet.source_protocol_addr b =
      some ((b.drop (8 + b.getD 4 0)).take (b.getD 5 0)) ∧
    Packet.target_hardware_addr b =
      some ((b.drop (8 + b.getD 4 0 + b.getD 5 0)).take (b.getD 4 0)) ∧
    Packet.target_protocol_addr b =
      some ((b.drop (8 + b.getD 4 0 + b.getD 5 0 + b.getD 4 0)).take (b.getD 5 0)) := by
  have h8 : 8 ≤ b.length := by
    have := (lenInv_iff b).1 h
    omega
  refine ⟨hardware_type_eq b (by omega), protocol_type_eq b (by omega),
    hardware_length_eq b h8, protocol_length_eq b h8, operation_eq b h8,
    ?_, ?_, ?_,
    source_hardware_addr_eq b h, source_protocol_addr_eq b h,
    target_hardware_addr_eq b h, target_protocol_addr_eq b h⟩
  · intro v
    obtain ⟨he, hlen, h0, h1⟩ := writeU16_spec b 0 v.toNat (by omega)
    exact ⟨writeBytes b 0 (u16Bytes v.toNat),
      by rw [Packet.set_hardware_type, show field.HTYPE = (⟨0, 0 + 2⟩ : Field) from rfl, he],
      hlen, h0, h1⟩
  · intro v
    obtain ⟨he, hlen, h0, h1⟩ := writeU16_spec b 2 v.toNat (by omega)
    exact ⟨writeBytes b 2 (u16Bytes v.toNat),
      by rw [Packet.set_protocol_type, show field.PTYPE = (⟨2, 2 + 2⟩ : Field) from rfl, he],
      hlen, h0, h1⟩
  · intro v
    obtain ⟨he, hlen, h0, h1⟩ := writeU16_spec b 6 v.toNat (by omega)
    exact ⟨writeBytes b 6 (u16Bytes v.toNat),
      by rw [Packet.set_operation, show field.OPER = (⟨6, 6 + 2⟩ : Field) from rfl, he],
      hlen, h0, h1⟩


theorem Packet.new_inv (b b2 : Buffer) (h : Packet.new b = some b2) :
    b2 = b ∧ lenInv b := by
  by_cases h1 : b.length < 8
  · rw [Packet.new_none_short b h1] at h
    exact absurd h (by simp)
  · by_cases h2 : b.length < 8 + 2 * b.getD 4 0 + 2 * b.getD 5 0
    · rw [Packet.new_none_declared b (by omega) h2] at h
      exact absurd h (by simp)
    · rw [Packet.new_some b (by omega) (by omega)] at h
      exact ⟨(Option.some.inj h).symm, (lenInv_iff b).2 ⟨by omega, by omega⟩⟩

theorem getD_of_getElem? (b : Buffer) (i x : Nat) (h : b[i]? = some x) :
    b.getD i 0 = x := by
  simp [List.getD_eq_getElem?_getD, h]

theorem SHA_lo (hl pl : Nat) : (field.SHA hl pl).lo = 8 := rfl

theorem SPA_lo (hl pl : Nat) : (field.SPA hl pl).lo = 8 + hl := rfl

theorem THA_lo (hl pl : Nat) : (field.THA hl pl).lo = 8 + hl + pl := rfl

theorem TPA_lo (hl pl : Nat) : (field.TPA hl pl).lo = 8 + hl + pl + hl := rfl

theorem SHA_width (hl pl : Nat) :
    (field.SHA hl pl).hi - (field.SHA hl pl).lo = hl := Nat.add_sub_cancel_left _ _

theorem SPA_width (hl pl : Nat) :
    (field.SPA hl pl).hi - (field.SPA hl pl).lo = pl := Nat.add_sub_cancel_left _ _

theorem THA_width (hl pl : Nat) :
    (field.THA hl pl).hi - (field.THA hl pl).lo = hl := Nat.add_sub_cancel_left _ _

theorem TPA_width (hl pl : Nat) :
    (field.TPA hl pl).hi - (field.TPA hl pl).lo = pl := Nat.add_sub_cancel_left _ _

theorem addr_set_some_inv (b : Buffer) (v : List Nat) (b2 : Buffer)
    (F : Nat → Nat → Field)
    (hsm : (do
      let hl ← Packet.hardware_length b
      let pl ← Packet.protocol_length b
      copyFromSlice b (F hl pl) v) = some b2) :
    b2 = writeBytes b (F (b.getD 4 0) (b.getD 5 0)).lo v ∧
    v.length =
      (F (b.getD 4 0) (b.getD 5 0)).hi - (F (b.getD 4 0) (b.getD 5 0)).lo ∧
    (F (b.getD 4 0) (b.getD 5 0)).hi ≤ b.length := by
  simp only [Option.bind_eq_bind] at hsm
  cases e4 : Packet.hardware_length b with
  | none => rw [e4] at hsm; simp at hsm
  | some hl =>
    cases e5 : Packet.protocol_length b with
    | none => rw [e4, e5] at hsm; simp at hsm
    | some pl =>
      rw [e4, e5] at hsm
      simp only [Option.some_bind] at hsm
      have hgl : b.getD 4 0 = hl := getD_of_getElem? b 4 hl e4
      have hg5 : b.getD 5 0 = pl := getD_of_getElem? b 5 pl e5
      rw [hgl, hg5]
      exact copyFromSlice_some_inv b (F hl pl) v b2 hsm


/-- C6: on a packet view, address mutators given a slice whose length
differs from the corresponding header-declared length take the fatal
precondition path (modelled as none) and never perform a silent partial
write; a successful write implies the slice had exactly the declared
length, so no truncated or padded address is ever written. -/
theorem C6_mutator_mismatch (b : Buffer) (v : List Nat)
    (hb : Packet.new b = some b) :
    (v.length ≠ b.getD 4 0 → Packet.set_source_hardware_addr b v = none) ∧
    (v.length ≠ b.getD 5 0 → Packet.set_source_protocol_addr b v = none) ∧
    (v.length ≠ b.getD 4 0 → Packet.set_target_hardware_addr b v = none) ∧
    (v.length ≠ b.getD 5 0 → Packet.set_target_protocol_addr b v = none) ∧
    (∀ b2 : Buffer, Packet.set_source_hardware_addr b v = some b2 →
      v.length = b.getD 4 0) ∧
    (∀ b2 : Buffer, Packet.set_source_protocol_addr b v = some b2 →
      v.length = b.getD 5 0) ∧
    (∀ b2 : Buffer, Packet.set_target_hardware_addr b v = some b2 →
      v.length = b.getD 4 0) ∧
    (∀ b2 : Buffer, Packet.set_target_protocol_addr b v = some b2 →
      v.length = b.getD 5 0) := by
  have hinv : lenInv b := (Packet.new_inv b b hb).2
  have h8 : 8 ≤ b.length := by
    have := (lenInv_iff b).1 hinv
    omega
  refine ⟨?_, ?_, ?_, ?_, ?_, ?_, ?_, ?_⟩
  · intro hv
    rw [Packet.set_source_hardware_addr, hardware_length_eq b h8,
      protocol_length_eq b h8]
    simp only [Option.bind_eq_bind, Option.some_bind]
    exact copyFromSlice_none b _ v (by rw [SHA_width]; exact hv)
  · intro hv
    rw [Packet.set_source_protocol_addr, hardware_length_eq b h8,
      protocol_length_eq b h8]
    simp only [Option.bind_eq_bind, Option.some_bind]
    exact copyFromSlice_none b _ v (by rw [SPA_width]; exact hv)
  · intro hv
    rw [Packet.set_target_hardware_addr, hardware_length_eq b h8,
      protocol_length_eq b h8]
    simp only [Option.bind_eq_bind, Option.some_bind]
    exact copyFromSlice_none b _ v (by rw [THA_width]; exact hv)
  · intro hv
    rw [Packet.set_target_protocol_addr, hardware_length_eq b h8,
      protocol_length_eq b h8]
    simp only [Option.bind_eq_bind, Option.some_bind]
    exact copyFromSlice_none b _ v (by rw [TPA_width]; exact hv)
  · intro b2 hsm
    rw [Packet.set_source_hardware_addr] at hsm
    have := (addr_set_some_inv b v b2 field.SHA hsm).2.1
    rwa [SHA_width] at this
  · intro b2 hsm
    rw [Packet.set_source_protocol_addr] at hsm
    have := (addr_set_some_inv b v b2 field.SPA hsm).2.1
    rwa [SPA_width] at this
  · intro b2 hsm
    rw [Packet.set_target_hardware_addr] at hsm
    have := (addr_set_some_inv b v b2 field.THA hsm).2.1
    rwa [THA_width] at this
  · intro b2 hsm
    rw [Packet.set_target_protocol_addr] at hsm
    have := (addr_set_some_inv b v b2 field.TPA hsm).2.1
    rwa [TPA_width] at this

/-- C6 witness: a 5-byte source hardware address is rejected when the
hardware length field says 6. -/
theorem C6_mutator_mismatch_witness :
    Packet.set_source_hardware_addr PACKET_BYTES [1, 2, 3, 4, 5] = none :=
  (C6_mutator_mismatch PACKET_BYTES [1, 2, 3, 4, 5] (by decide)).1 (by decide)


theorem set_getD_frame (b : Buffer) (j v i : Nat) (h : j ≠ i) :
    (b.set j v).getD i 0 = b.getD i 0 := by
  simp [List.getD_eq_getElem?_getD, List.getElem?_set_ne h]

/-- C9: frame property of the mutators: each fixed-field mutator changes
only its own field bytes (hardware type 0..2, protocol type 2..4, hardware
length byte 4, protocol length byte 5, operation 6..8), and each address
mutator changes only the bytes of its own field range; every other byte
and the buffer length are unchanged. -/
theorem C9_mutator_frame (b : Buffer) :
    (∀ (v : HardwareType) (b2 : Buffer), Packet.set_hardware_type b v = some b2 →
      b2.length = b.length ∧ ∀ i : Nat, 2 ≤ i → b2.getD i 0 = b.getD i 0) ∧
    (∀ (v : ProtocolType) (b2 : Buffer), Packet.set_protocol_type b v = some b2 →
      b2.length = b.length ∧
      ∀ i : Nat, i < 2 ∨ 4 ≤ i → b2.getD i 0 = b.getD i 0) ∧
    (∀ (v : Nat) (b2 : Buffer), Packet.set_hardware_length b v = some b2 →
      b2.length = b.length ∧ ∀ i : Nat, i ≠ 4 → b2.getD i 0 = b.getD i 0) ∧
    (∀ (v : Nat) (b2 : Buffer), Packet.set_protocol_length b v = some b2 →
      b2.length = b.length ∧ ∀ i : Nat, i ≠ 5 → b2.getD i 0 = b.getD i 0) ∧
    (∀ (v : Operation) (b2 : Buffer), Packet.set_operation b v = some b2 →
      b2.length = b.length ∧
      ∀ i : Nat, i < 6 ∨ 8 ≤ i → b2.getD i 0 = b.getD i 0) ∧
    (∀ (v : List Nat) (b2 : Buffer), Packet.set_source_hardware_addr b v = some b2 →
      b2.length = b.length ∧
      ∀ i : Nat, i < 8 ∨ 8 + b.getD 4 0 ≤ i → b2.getD i 0 = b.getD i 0) ∧
    (∀ (v : List Nat) (b2 : Buffer), Packet.set_source_protocol_addr b v = some b2 →
      b2.length = b.length ∧
      ∀ i : Nat, i < 8 + b.getD 4 0 ∨ 8 + b.getD 4 0 + b.getD 5 0 ≤ i →
        b2.getD i 0 = b.getD i 0) ∧
    (∀ (v : List Nat) (b2 : Buffer), Packet.set_target_hardware_addr b v = some b2 →
      b2.length = b.length ∧
      ∀ i : Nat, i < 8 + b.getD 4 0 + b.getD 5 0 ∨
          8 + b.getD 4 0 + b.getD 5 0 + b.getD 4 0 ≤ i →
        b2.getD i 0 = b.getD i 0) ∧
    (∀ (v : List Nat) (b2 : Buffer), Packet.set_target_protocol_addr b v = some b2 →
      b2.length = b.length ∧
      ∀ i : Nat, i < 8 + b.getD 4 0 + b.getD 5 0 + b.getD 4 0 ∨
          8 + b.getD 4 0 + b.getD 5 0 + b.getD 4 0 + b.getD 5 0 ≤ i →
        b2.getD i 0 = b.getD i 0) := by
  refine ⟨?_, ?_, ?_, ?_, ?_, ?_, ?_, ?_, ?_⟩
  · intro v b2 hsm
    obtain ⟨rfl, -⟩ := writeU16_some_inv b field.HTYPE v.toNat b2 hsm
    refine ⟨writeBytes_length _ b _, fun i hi => ?_⟩
    exact writeBytes_getD_frame _ b _ i (Or.inr (by simp [u16Bytes, field.HTYPE]; omega))
  · intro v b2 hsm
    obtain ⟨rfl, -⟩ := writeU16_some_inv b field.PTYPE v.toNat b2 hsm
    refine ⟨writeBytes_length _ b _, fun i hi => ?_⟩
    exact writeBytes_getD_frame _ b _ i
      (by simp only [u16Bytes, field.PTYPE, List.length_cons, List.length_nil]; omega)
  · intro v b2 hsm
    rw [Packet.set_hardware_length] at hsm
    split_ifs at hsm
    obtain rfl := (Option.some.inj hsm).symm
    exact ⟨List.length_set b field.HLEN v, fun i hi =>
      set_getD_frame b field.HLEN v i (by simpa [field.HLEN] using (Ne.symm hi))⟩
  · intro v b2 hsm
    rw [Packet.set_protocol_length] at hsm
    split_ifs at hsm
    obtain rfl := (Option.some.inj hsm).symm
    exact ⟨List.length_set b field.PLEN v, fun i hi =>
      set_getD_frame b field.PLEN v i (by simpa [field.PLEN] using (Ne.symm hi))⟩
  · intro v b2 hsm
    obtain ⟨rfl, -⟩ := writeU16_some_inv b field.OPER v.toNat b2 hsm
    refine ⟨writeBytes_length _ b _, fun i hi => ?_⟩
    exact writeBytes_getD_frame _ b _ i
      (by simp only [u16Bytes, field.OPER, List.length_cons, List.length_nil]; omega)
  · intro v b2 hsm
    rw [Packet.set_source_hardware_addr] at hsm
    obtain ⟨rfl, hw, -⟩ := addr_set_some_inv b v b2 field.SHA hsm
    rw [SHA_width] at hw
    refine ⟨writeBytes_length _ b _, fun i hi => ?_⟩
    exact writeBytes_getD_frame _ b _ i (by rw [SHA_lo, hw]; omega)
  · intro v b2 hsm
    rw [Packet.set_source_protocol_addr] at hsm
    obtain ⟨rfl, hw, -⟩ := addr_set_some_inv b v b2 field.SPA hsm
    rw [SPA_width] at hw
    refine ⟨writeBytes_length _ b _, fun i hi => ?_⟩
    exact writeBytes_getD_frame _ b _ i (by rw [SPA_lo, hw]; omega)
  · intro v b2 hsm
    rw [Packet.set_target_hardware_addr] at hsm
    obtain ⟨rfl, hw, -⟩ := addr_set_some_inv b v b2 field.THA hsm
    rw [THA_width] at hw
    refine ⟨writeBytes_length _ b _, fun i hi => ?_⟩
    exact writeBytes_getD_frame _ b _ i (by rw [THA_lo, hw]; omega)
  · intro v b2 hsm
    rw [Packet.set_target_protocol_addr] at hsm
    obtain ⟨rfl, hw, -⟩ := addr_set_some_inv b v b2 field.TPA hsm
    rw [TPA_width] at hw
    refine ⟨writeBytes_length _ b _, fun i hi => ?_⟩
    exact writeBytes_getD_frame _ b _ i (by rw [TPA_lo, hw]; omega)


/-- C10: under the length invariant every accessor indexes only in-bounds
positions and never fails; Packet::new establishes the invariant; and the
invariant is not preserved by construction alone, since rewriting the
hardware-length byte can break it. -/
theorem C10_accessor_totality :
    (∀ b : Buffer, lenInv b →
      (Packet.hardware_type b).isSome ∧
      (Packet.protocol_type b).isSome ∧
      (Packet.hardware_length b).isSome ∧
      (Packet.protocol_length b).isSome ∧
      (Packet.operation b).isSome ∧
      (Packet.source_hardware_addr b).isSome ∧
      (Packet.source_protocol_addr b).isSome ∧
      (Packet.target_hardware_addr b).isSome ∧
      (Packet.target_protocol_addr b).isSome) ∧
    (∀ b b2 : Buffer, Packet.new b = some b2 → b2 = b ∧ lenInv b2) ∧
    (∃ b2 : Buffer, Packet.set_hardware_length PACKET_BYTES 200 = some b2 ∧
      ¬ lenInv b2) := by
  refine ⟨?_, ?_, ?_⟩
  · intro b h
    have h8 : 8 ≤ b.length := by
      have := (lenInv_iff b).1 h
      omega
    rw [hardware_type_eq b (by omega), protocol_type_eq b (by omega),
      hardware_length_eq b h8, protocol_length_eq b h8, operation_eq b h8,
      source_hardware_addr_eq b h, source_protocol_addr_eq b h,
      target_hardware_addr_eq b h, target_protocol_addr_eq b h]
    simp
  · intro b b2 hnew
    obtain ⟨rfl, hi⟩ := Packet.new_inv b b2 hnew
    exact ⟨rfl, hi⟩
  · exact ⟨PACKET_BYTES.set 4 200, by decide, by decide⟩

/-- C10 witness: totality and establishment applied at the literal vector. -/
theorem C10_accessor_totality_witness :
    (Packet.source_hardware_addr PACKET_BYTES).isSome ∧ lenInv PACKET_BYTES :=
  ⟨(C10_accessor_totality.1 PACKET_BYTES (by decide)).2.2.2.2.2.1,
   (C10_accessor_totality.2.1 PACKET_BYTES PACKET_BYTES (by decide)).2⟩

/-- C3 witness: the recognition theorem applied at the literal vector. -/
theorem C3_parse_recognition_witness :
    Repr.parse PACKET_BYTES = some (Repr.EthernetIpv4
      (Operation.fromNat (PACKET_BYTES.getD 6 0 * 256 + PACKET_BYTES.getD 7 0))
      (EthernetAddress.from_bytes ((PACKET_BYTES.drop 8).take 6))
      (Ipv4Address.from_bytes ((PACKET_BYTES.drop 14).take 4))
      (EthernetAddress.from_bytes ((PACKET_BYTES.drop 18).take 6))
      (Ipv4Address.from_bytes ((PACKET_BYTES.drop 24).take 4))) :=
  (C3_parse_recognition PACKET_BYTES (by decide)).1
    ⟨by decide, by decide, by decide, by decide⟩

/-- C7 witness: the offset theorem applied at the literal vector. -/
theorem C7_field_offsets_witness :
    Packet.operation PACKET_BYTES =
      some (Operation.fromNat
        (PACKET_BYTES.getD 6 0 * 256 + PACKET_BYTES.getD 7 0)) ∧
    Packet.source_hardware_addr PACKET_BYTES =
      some ((PACKET_BYTES.drop 8).take (PACKET_BYTES.getD 4 0)) :=
  ⟨(C7_field_offsets PACKET_BYTES (by decide)).2.2.2.2.1,
   (C7_field_offsets PACKET_BYTES (by decide)).2.2.2.2.2.2.2.2.1⟩

/-- C9 witness: the frame theorem for the hardware-length mutator applied
at the literal vector and byte index 0. -/
theorem C9_mutator_frame_witness :
    (PACKET_BYTES.set 4 9).getD 0 0 = PACKET_BYTES.getD 0 0 :=
  ((C9_mutator_frame PACKET_BYTES).2.2.1 9 (PACKET_BYTES.set 4 9)
    (by decide)).2 0 (by decide)


/-- C5: the literal 28-byte vector is accepted by Packet::new, its header
reads back as (Ethernet, IPv4, 6, 4, Request), Repr::parse yields the
expected addresses, and emitting that Repr into a 28-byte buffer
reproduces the identical 28 bytes. -/
theorem C5_literal_vector :
    Packet.new PACKET_BYTES = some PACKET_BYTES ∧
    Packet.hardware_type PACKET_BYTES = some HardwareType.Ethernet ∧
    Packet.protocol_type PACKET_BYTES = some ProtocolType.Ipv4 ∧
    Packet.hardware_length PACKET_BYTES = some 6 ∧
    Packet.protocol_length PACKET_BYTES = some 4 ∧
    Packet.operation PACKET_BYTES = some Operation.Request ∧
    Repr.parse PACKET_BYTES = some packet_repr ∧
    Repr.emit packet_repr (List.replicate 28 0) = some PACKET_BYTES := by
  decide

/-- C8: the HardwareType and Operation enumerations preserve unrecognized
codes: for every 16-bit value, converting into the enumeration and back to
a raw code is the identity; the named variants carry their documented
codes; and every unknown code lands in the catch-all variant instead of
collapsing to a named one. -/
theorem C8_enum_roundtrip (v : Nat) (_hv : v < 65536) :
    (HardwareType.fromNat v).toNat = v ∧
    (Operation.fromNat v).toNat = v ∧
    HardwareType.fromNat 1 = HardwareType.Ethernet ∧
    Operation.fromNat 1 = Operation.Request ∧
    Operation.fromNat 2 = Operation.Reply ∧
    (v ≠ 1 → HardwareType.fromNat v = HardwareType.Unknown v) ∧
    (v ≠ 1 → v ≠ 2 → Operation.fromNat v = Operation.Unknown v) := by
  refine ⟨hwType_code_roundtrip v, operation_code_roundtrip v,
    by decide, by decide, by decide, ?_, ?_⟩
  · intro h1
    simp [HardwareType.fromNat, h1]
  · intro h1 h2
    simp [Operation.fromNat, h1, h2]

/-- C8 witness: the enumeration round-trip at the unknown code 4660. -/
theorem C8_enum_roundtrip_witness :
    (HardwareType.fromNat 4660).toNat = 4660 ∧
    Operation.fromNat 4660 = Operation.Unknown 4660 :=
  ⟨(C8_enum_roundtrip 4660 (by decide)).1,
   (C8_enum_roundtrip 4660 (by decide)).2.2.2.2.2.2 (by decide) (by decide)⟩

/-- C4 counterexample: with hardware length 0 and protocol length 0 all
four variable-length fields start at offset 8, so the four start offsets
are not strictly increasing as the claim states for all length pairs
including zero. -/
theorem C4_counterexample :
    ¬ ((field.SHA 0 0).lo < (field.SPA 0 0).lo ∧
       (field.SPA 0 0).lo < (field.THA 0 0).lo ∧
       (field.THA 0 0).lo < (field.TPA 0 0).lo) := by
  decide

/-- C4 (amended): the field layout calculator is pure arithmetic with the
stated spans; for all length pairs, including zero lengths, the four
ranges are contiguous and non-overlapping and their start offsets are
non-decreasing; the start offsets are strictly increasing whenever both
lengths are positive. -/
theorem C4_field_layout (hl pl : Nat) :
    (field.SHA hl pl = ⟨8, 8 + hl⟩ ∧
     field.SPA hl pl = ⟨8 + hl, 8 + hl + pl⟩ ∧
     field.THA hl pl = ⟨8 + hl + pl, 8 + 2 * hl + pl⟩ ∧
     field.TPA hl pl = ⟨8 + 2 * hl + pl, 8 + 2 * hl + 2 * pl⟩) ∧
    ((field.SPA hl pl).lo = (field.SHA hl pl).hi ∧
     (field.THA hl pl).lo = (field.SPA hl pl).hi ∧
     (field.TPA hl pl).lo = (field.THA hl pl).hi) ∧
    (∀ i : Nat,
      ¬ ((field.SHA hl pl).mem i ∧ (field.SPA hl pl).mem i) ∧
      ¬ ((field.SHA hl pl).mem i ∧ (field.THA hl pl).mem i) ∧
      ¬ ((field.SHA hl pl).mem i ∧ (field.TPA hl pl).mem i) ∧
      ¬ ((field.SPA hl pl).mem i ∧ (field.THA hl pl).mem i) ∧
      ¬ ((field.SPA hl pl).mem i ∧ (field.TPA hl pl).mem i) ∧
      ¬ ((field.THA hl pl).mem i ∧ (field.TPA hl pl).mem i)) ∧
    ((field.SHA hl pl).lo ≤ (field.SPA hl pl).lo ∧
     (field.SPA hl pl).lo ≤ (field.THA hl pl).lo ∧
     (field.THA hl pl).lo ≤ (field.TPA hl pl).lo) ∧
    (0 < hl → 0 < pl →
      (field.SHA hl pl).lo < (field.SPA hl pl).lo ∧
      (field.SPA hl pl).lo < (field.THA hl pl).lo ∧
      (field.THA hl pl).lo < (field.TPA hl pl).lo) := by
  refine ⟨⟨?_, ?_, ?_, ?_⟩, ⟨?_, ?_, ?_⟩,
    fun i => ⟨?_, ?_, ?_, ?_, ?_, ?_⟩, ⟨?_, ?_, ?_⟩,
    fun h1 h2 => ⟨?_, ?_, ?_⟩⟩
  all_goals try simp only [field.SHA, field.SPA, field.THA, field.TPA,
    field.OPER, Field.mem, Field.mk.injEq, true_and, and_true]
  all_goals omega

/-- C4 witness: strict increase of the first two starts at lengths 6, 4. -/
theorem C4_field_layout_witness :
    (field.SHA 6 4).lo < (field.SPA 6 4).lo := by
  obtain ⟨-, -, -, -, hstrict⟩ := C4_field_layout 6 4
  exact (hstrict (by decide) (by decide)).1

/-- C2: Packet::new performs two-phase validation: error when the buffer
is shorter than 8 bytes; otherwise, with the length bytes read from
offsets 4 and 5, error when the buffer is shorter than
8 + 2 hardware_length + 2 protocol_length; in all remaining cases, a
packet view wrapping the buffer. -/
theorem C2_packet_new (b : Buffer) :
    (b.length < 8 → Packet.new b = none) ∧
    (8 ≤ b.length → b.length < 8 + 2 * b.getD 4 0 + 2 * b.getD 5 0 →
      Packet.new b = none) ∧
    (8 ≤ b.length → 8 + 2 * b.getD 4 0 + 2 * b.getD 5 0 ≤ b.length →
      Packet.new b = some b) :=
  ⟨fun h => Packet.new_none_short b h,
   fun h8 h => Packet.new_none_declared b h8 h,
   fun h8 h => Packet.new_some b h8 h⟩

/-- C2 witness: all three branches at concrete buffers. -/
theorem C2_packet_new_witness :
    Packet.new [0, 0, 0, 0] = none ∧
    Packet.new [0, 1, 8, 0, 6, 4, 0, 1] = none ∧
    Packet.new PACKET_BYTES = some PACKET_BYTES :=
  ⟨(C2_packet_new [0, 0, 0, 0]).1 (by decide),
   (C2_packet_new [0, 1, 8, 0, 6, 4, 0, 1]).2.1 (by decide) (by decide),
   (C2_packet_new PACKET_BYTES).2.2 (by decide) (by decide)⟩


set_option maxRecDepth 100000 in
set_option maxHeartbeats 2000000 in
theorem parse_explicit (x6 x7 s0 s1 s2 s3 s4 s5 p0 p1 p2 p3
    t0 t1 t2 t3 t4 t5 q0 q1 q2 q3 : Nat) :
    Repr.parse [0, 1, 8, 0, 6, 4, x6, x7, s0, s1, s2, s3, s4, s5,
      p0, p1, p2, p3, t0, t1, t2, t3, t4, t5, q0, q1, q2, q3] =
      some (Repr.EthernetIpv4 (Operation.fromNat (x6 * 256 + x7))
        ⟨s0, s1, s2, s3, s4, s5⟩ ⟨p0, p1, p2, p3⟩
        ⟨t0, t1, t2, t3, t4, t5⟩ ⟨q0, q1, q2, q3⟩) := rfl

set_option maxRecDepth 100000 in
set_option maxHeartbeats 2000000 in
theorem emit_explicit (op : Operation) (sha : EthernetAddress)
    (spa : Ipv4Address) (tha : EthernetAddress) (tpa : Ipv4Address)
    (c0 c1 c2 c3 c4 c5 c6 c7 c8 c9 c10 c11 c12 c13 c14 c15 c16 c17 c18 c19
     c20 c21 c22 c23 c24 c25 c26 c27 : Nat) :
    Repr.emit (Repr.EthernetIpv4 op sha spa tha tpa)
      [c0, c1, c2, c3, c4, c5, c6, c7, c8, c9, c10, c11, c12, c13, c14, c15, c16, c17, c18, c19, c20, c21, c22, c23, c24, c25, c26, c27] =
      some [0, 1, 8, 0, 6, 4, Operation.toNat op / 256 % 256, Operation.toNat op % 256, sha.b0, sha.b1, sha.b2, sha.b3, sha.b4, sha.b5, spa.b0, spa.b1, spa.b2, spa.b3, tha.b0, tha.b1, tha.b2, tha.b3, tha.b4, tha.b5, tpa.b0, tpa.b1, tpa.b2, tpa.b3] := by
  rw [Repr.emit]
  rw [show Packet.set_hardware_type
      [c0, c1, c2, c3, c4, c5, c6, c7, c8, c9, c10, c11, c12, c13, c14, c15, c16, c17, c18, c19, c20, c21, c22, c23, c24, c25, c26, c27]
      HardwareType.Ethernet = some
      [0, 1, c2, c3, c4, c5, c6, c7, c8, c9, c10, c11, c12, c13, c14, c15, c16, c17, c18, c19, c20, c21, c22, c23, c24, c25, c26, c27] from rfl]
  simp only [Option.bind_eq_bind, Option.some_bind]
  rw [show Packet.set_protocol_type
      [0, 1, c2, c3, c4, c5, c6, c7, c8, c9, c10, c11, c12, c13, c14, c15, c16, c17, c18, c19, c20, c21, c22, c23, c24, c25, c26, c27]
      ProtocolType.Ipv4 = some
      [0, 1, 8, 0, c4, c5, c6, c7, c8, c9, c10, c11, c12, c13, c14, c15, c16, c17, c18, c19, c20, c21, c22, c23, c24, c25, c26, c27] from rfl]
  simp only [Option.bind_eq_bind, Option.some_bind]
  rw [show Packet.set_hardware_length
      [0, 1, 8, 0, c4, c5, c6, c7, c8, c9, c10, c11, c12, c13, c14, c15, c16, c17, c18, c19, c20, c21, c22, c23, c24, c25, c26, c27]
      6 = some
      [0, 1, 8, 0, 6, c5, c6, c7, c8, c9, c10, c11, c12, c13, c14, c15, c16, c17, c18, c19, c20, c21, c22, c23, c24, c25, c26, c27] from rfl]
  simp only [Option.bind_eq_bind, Option.some_bind]
  rw [show Packet.set_protocol_length
      [0, 1, 8, 0, 6, c5, c6, c7, c8, c9, c10, c11, c12, c13, c14, c15, c16, c17, c18, c19, c20, c21, c22, c23, c24, c25, c26, c27]
      4 = some
      [0, 1, 8, 0, 6, 4, c6, c7, c8, c9, c10, c11, c12, c13, c14, c15, c16, c17, c18, c19, c20, c21, c22, c23, c24, c25, c26, c27] from rfl]
  simp only [Option.bind_eq_bind, Option.some_bind]
  rw [show Packet.set_operation
      [0, 1, 8, 0, 6, 4, c6, c7, c8, c9, c10, c11, c12, c13, c14, c15, c16, c17, c18, c19, c20, c21, c22, c23, c24, c25, c26, c27]
      op = some
      [0, 1, 8, 0, 6, 4, Operation.toNat op / 256 % 256, Operation.toNat op % 256, c8, c9, c10, c11, c12, c13, c14, c15, c16, c17, c18, c19, c20, c21, c22, c23, c24, c25, c26, c27] from rfl]
  simp only [Option.bind_eq_bind, Option.some_bind]
  rw [show Packet.set_source_hardware_addr
      [0, 1, 8, 0, 6, 4, Operation.toNat op / 256 % 256, Operation.toNat op % 256, c8, c9, c10, c11, c12, c13, c14, c15, c16, c17, c18, c19, c20, c21, c22, c23, c24, c25, c26, c27]
      (EthernetAddress.as_bytes sha) = some
      [0, 1, 8, 0, 6, 4, Operation.toNat op / 256 % 256, Operation.toNat op % 256, sha.b0, sha.b1, sha.b2, sha.b3, sha.b4, sha.b5, c14, c15, c16, c17, c18, c19, c20, c21, c22, c23, c24, c25, c26, c27] from rfl]
  simp only [Option.bind_eq_bind, Option.some_bind]
  rw [show Packet.set_source_protocol_addr
      [0, 1, 8, 0, 6, 4, Operation.toNat op / 256 % 256, Operation.toNat op % 256, sha.b0, sha.b1, sha.b2, sha.b3, sha.b4, sha.b5, c14, c15, c16, c17, c18, c19, c20, c21, c22, c23, c24, c25, c26, c27]
      (Ipv4Address.as_bytes spa) = some
      [0, 1, 8, 0, 6, 4, Operation.toNat op / 256 % 256, Operation.toNat op % 256, sha.b0, sha.b1, sha.b2, sha.b3, sha.b4, sha.b5, spa.b0, spa.b1, spa.b2, spa.b3, c18, c19, c20, c21, c22, c23, c24, c25, c26, c27] from rfl]
  simp only [Option.bind_eq_bind, Option.some_bind]
  rw [show Packet.set_target_hardware_addr
      [0, 1, 8, 0, 6, 4, Operation.toNat op / 256 % 256, Operation.toNat op % 256, sha.b0, sha.b1, sha.b2, sha.b3, sha.b4, sha.b5, spa.b0, spa.b1, spa.b2, spa.b3, c18, c19, c20, c21, c22, c23, c24, c25, c26, c27]
      (EthernetAddress.as_bytes tha) = some
      [0, 1, 8, 0, 6, 4, Operation.toNat op / 256 % 256, Operation.toNat op % 256, sha.b0, sha.b1, sha.b2, sha.b3, sha.b4, sha.b5, spa.b0, spa.b1, spa.b2, spa.b3, tha.b0, tha.b1, tha.b2, tha.b3, tha.b4, tha.b5, c24, c25, c26, c27] from rfl]
  simp only [Option.bind_eq_bind, Option.some_bind]
  rw [show Packet.set_target_protocol_addr
      [0, 1, 8, 0, 6, 4, Operation.toNat op / 256 % 256, Operation.toNat op % 256, sha.b0, sha.b1, sha.b2, sha.b3, sha.b4, sha.b5, spa.b0, spa.b1, spa.b2, spa.b3, tha.b0, tha.b1, tha.b2, tha.b3, tha.b4, tha.b5, c24, c25, c26, c27]
      (Ipv4Address.as_bytes tpa) = some
      [0, 1, 8, 0, 6, 4, Operation.toNat op / 256 % 256, Operation.toNat op % 256, sha.b0, sha.b1, sha.b2, sha.b3, sha.b4, sha.b5, spa.b0, spa.b1, spa.b2, spa.b3, tha.b0, tha.b1, tha.b2, tha.b3, tha.b4, tha.b5, tpa.b0, tpa.b1, tpa.b2, tpa.b3] from rfl]
  simp only [Option.bind_eq_bind, Option.some_bind]
  rfl

/-- C1 counterexample: the value Repr.EthernetIpv4 with operation
Operation.Unknown 1 is constructible; emitting it writes the raw code 1,
which parses back as Operation.Request, so emit-then-parse is not the
identity on every EthernetIpv4 value as the claim states. -/
theorem C1_counterexample :
    (Repr.emit (Repr.EthernetIpv4 (Operation.Unknown 1)
        ⟨0, 0, 0, 0, 0, 0⟩ ⟨0, 0, 0, 0⟩ ⟨0, 0, 0, 0, 0, 0⟩ ⟨0, 0, 0, 0⟩)
      (List.replicate 28 0)).bind Repr.parse =
      some (Repr.EthernetIpv4 Operation.Request
        ⟨0, 0, 0, 0, 0, 0⟩ ⟨0, 0, 0, 0⟩ ⟨0, 0, 0, 0, 0, 0⟩ ⟨0, 0, 0, 0⟩) ∧
    Repr.EthernetIpv4 Operation.Request
        ⟨0, 0, 0, 0, 0, 0⟩ ⟨0, 0, 0, 0⟩ ⟨0, 0, 0, 0, 0, 0⟩ ⟨0, 0, 0, 0⟩ ≠
      Repr.EthernetIpv4 (Operation.Unknown 1)
        ⟨0, 0, 0, 0, 0, 0⟩ ⟨0, 0, 0, 0⟩ ⟨0, 0, 0, 0, 0, 0⟩ ⟨0, 0, 0, 0⟩ := by
  decide

/-- C1 (amended): for the Ethernet/IPv4 combination, parse-then-emit
reproduces every well-formed 28-byte buffer exactly; and emit-then-parse
is the identity for every Repr.EthernetIpv4 value whose operation is a
16-bit code that re-encodes to the same enumeration value, the amendment
forced by the counterexample. -/
theorem C1_roundtrip :
    (∀ b : Buffer, b.length = 28 → (∀ x ∈ b, x < 256) →
      b.getD 0 0 = 0 → b.getD 1 0 = 1 → b.getD 2 0 = 8 → b.getD 3 0 = 0 →
      b.getD 4 0 = 6 → b.getD 5 0 = 4 →
      ∃ r : Repr, Repr.parse b = some r ∧ Repr.emit r b = some b) ∧
    (∀ (op : Operation) (sha : EthernetAddress) (spa : Ipv4Address)
        (tha : EthernetAddress) (tpa : Ipv4Address) (b : Buffer),
      b.length = 28 →
      Operation.toNat op < 65536 →
      Operation.fromNat (Operation.toNat op) = op →
      ∃ b2 : Buffer,
        Repr.emit (Repr.EthernetIpv4 op sha spa tha tpa) b = some b2 ∧
        Repr.parse b2 = some (Repr.EthernetIpv4 op sha spa tha tpa)) := by
  constructor
  · intro b hlen hbytes h0 h1 h2 h3 h4 h5
    obtain _ | ⟨a0, b⟩ := b
    · simp at hlen
    obtain _ | ⟨a1, b⟩ := b
    · simp at hlen
    obtain _ | ⟨a2, b⟩ := b
    · simp at hlen
    obtain _ | ⟨a3, b⟩ := b
    · simp at hlen
    obtain _ | ⟨a4, b⟩ := b
    · simp at hlen
    obtain _ | ⟨a5, b⟩ := b
    · simp at hlen
    obtain _ | ⟨a6, b⟩ := b
    · simp at hlen
    obtain _ | ⟨a7, b⟩ := b
    · simp at hlen
    obtain _ | ⟨a8, b⟩ := b
    · simp at hlen
    obtain _ | ⟨a9, b⟩ := b
    · simp at hlen
    obtain _ | ⟨a10, b⟩ := b
    · simp at hlen
    obtain _ | ⟨a11, b⟩ := b
    · simp at hlen
    obtain _ | ⟨a12, b⟩ := b
    · simp at hlen
    obtain _ | ⟨a13, b⟩ := b
    · simp at hlen
    obtain _ | ⟨a14, b⟩ := b
    · simp at hlen
    obtain _ | ⟨a15, b⟩ := b
    · simp at hlen
    obtain _ | ⟨a16, b⟩ := b
    · simp at hlen
    obtain _ | ⟨a17, b⟩ := b
    · simp at hlen
    obtain _ | ⟨a18, b⟩ := b
    · simp at hlen
    obtain _ | ⟨a19, b⟩ := b
    · simp at hlen
    obtain _ | ⟨a20, b⟩ := b
    · simp at hlen
    obtain _ | ⟨a21, b⟩ := b
    · simp at hlen
    obtain _ | ⟨a22, b⟩ := b
    · simp at hlen
    obtain _ | ⟨a23, b⟩ := b
    · simp at hlen
    obtain _ | ⟨a24, b⟩ := b
    · simp at hlen
    obtain _ | ⟨a25, b⟩ := b
    · simp at hlen
    obtain _ | ⟨a26, b⟩ := b
    · simp at hlen
    obtain _ | ⟨a27, b⟩ := b
    · simp at hlen
    obtain _ | ⟨a28, b⟩ := b
    · simp at h0 h1 h2 h3 h4 h5
      subst h0 h1 h2 h3 h4 h5
      have hb6 : a6 < 256 := hbytes a6 (by simp)
      have hb7 : a7 < 256 := hbytes a7 (by simp)
      refine ⟨Repr.EthernetIpv4 (Operation.fromNat (a6 * 256 + a7))
        ⟨a8, a9, a10, a11, a12, a13⟩ ⟨a14, a15, a16, a17⟩
        ⟨a18, a19, a20, a21, a22, a23⟩ ⟨a24, a25, a26, a27⟩,
        parse_explicit a6 a7 a8 a9 a10 a11 a12 a13 a14 a15 a16 a17 a18 a19
          a20 a21 a22 a23 a24 a25 a26 a27, ?_⟩
      rw [emit_explicit, operation_code_roundtrip]
      simp only [Option.some.injEq, List.cons.injEq, and_true, true_and,
        eq_self_iff_true]
      omega
    · simp at hlen
  · intro op sha spa tha tpa b hlen hop hcanon
    obtain _ | ⟨c0, b⟩ := b
    · simp at hlen
    obtain _ | ⟨c1, b⟩ := b
    · simp at hlen
    obtain _ | ⟨c2, b⟩ := b
    · simp at hlen
    obtain _ | ⟨c3, b⟩ := b
    · simp at hlen
    obtain _ | ⟨c4, b⟩ := b
    · simp at hlen
    obtain _ | ⟨c5, b⟩ := b
    · simp at hlen
    obtain _ | ⟨c6, b⟩ := b
    · simp at hlen
    obtain _ | ⟨c7, b⟩ := b
    · simp at hlen
    obtain _ | ⟨c8, b⟩ := b
    · simp at hlen
    obtain _ | ⟨c9, b⟩ := b
    · simp at hlen
    obtain _ | ⟨c10, b⟩ := b
    · simp at hlen
    obtain _ | ⟨c11, b⟩ := b
    · simp at hlen
    obtain _ | ⟨c12, b⟩ := b
    · simp at hlen
    obtain _ | ⟨c13, b⟩ := b
    · simp at hlen
    obtain _ | ⟨c14, b⟩ := b
    · simp at hlen
    obtain _ | ⟨c15, b⟩ := b
    · simp at hlen
    obtain _ | ⟨c16, b⟩ := b
    · simp at hlen
    obtain _ | ⟨c17, b⟩ := b
    · simp at hlen
    obtain _ | ⟨c18, b⟩ := b
    · simp at hlen
    obtain _ | ⟨c19, b⟩ := b
    · simp at hlen
    obtain _ | ⟨c20, b⟩ := b
    · simp at hlen
    obtain _ | ⟨c21, b⟩ := b
    · simp at hlen
    obtain _ | ⟨c22, b⟩ := b
    · simp at hlen
    obtain _ | ⟨c23, b⟩ := b
    · simp at hlen
    obtain _ | ⟨c24, b⟩ := b
    · simp at hlen
    obtain _ | ⟨c25, b⟩ := b
    · simp at hlen
    obtain _ | ⟨c26, b⟩ := b
    · simp at hlen
    obtain _ | ⟨c27, b⟩ := b
    · simp at hlen
    obtain _ | ⟨c28, b⟩ := b
    · refine ⟨_, emit_explicit op sha spa tha tpa c0 c1 c2 c3 c4 c5 c6 c7 c8 c9 c10 c11 c12 c13 c14 c15 c16 c17 c18 c19 c20 c21 c22 c23 c24 c25 c26 c27, ?_⟩
      rw [parse_explicit,
        show Operation.toNat op / 256 % 256 * 256 + Operation.toNat op % 256
          = Operation.toNat op from by omega, hcanon]
    · simp at hlen

/-- C1 witness: both directions at the literal test vector. -/
theorem C1_roundtrip_witness :
    (∃ r : Repr, Repr.parse PACKET_BYTES = some r ∧
      Repr.emit r PACKET_BYTES = some PACKET_BYTES) ∧
    (∃ b2 : Buffer,
      Repr.emit packet_repr (List.replicate 28 0) = some b2 ∧
      Repr.parse b2 = some packet_repr) :=
  ⟨C1_roundtrip.1 PACKET_BYTES (by decide) (by decide) (by decide) (by decide)
    (by decide) (by decide) (by decide) (by decide),
   C1_roundtrip.2 Operation.Request
    ⟨0x11, 0x12, 0x13, 0x14, 0x15, 0x16⟩ ⟨0x21, 0x22, 0x23, 0x24⟩
    ⟨0x31, 0x32, 0x33, 0x34, 0x35, 0x36⟩ ⟨0x41, 0x42, 0x43, 0x44⟩
    (List.replicate 28 0) (by decide) (by decide) (by decide)⟩

end Arp
